import Mathlib

/-!
Verification of the Jolt bundler core against its design document.

The JavaScript sources are shallowly embedded: pure helpers become Lean
functions, the stateful build pipeline becomes explicit state passing,
and fallible operations return `Except`.  External collaborators (the
file system, the SWC transpiler, the SHA-256 hash, and node's `path`
primitives) are gathered in an `Env` record and quantified over, exactly
as the design document treats them: opaque functions behind narrow
interfaces.
-/

namespace Jolt

/-! ## Node `path` primitives used by the sources -/

/-- Character-list test: does `s` begin with the pattern `pat`? -/
def beginsWith : List Char → List Char → Bool
  | [], _ => true
  | _ :: _, [] => false
  | p :: ps, c :: cs => p = c && beginsWith ps cs

/-- Character-list test: does `s` finish with the pattern `pat`? -/
def finishesWith (pat s : List Char) : Bool :=
  beginsWith pat.reverse s.reverse

/-- Node `path.basename p`: the final segment of `p`, ignoring trailing
separators. -/
def basenameChars (p : List Char) : List Char :=
  (((p.reverse.dropWhile (fun c => c = '/')).takeWhile (fun c => c ≠ '/'))).reverse

/-- Node `path.extname` restricted to an already-extracted basename `b`:
the substring from the last `'.'` to the end, empty when there is no dot
or when the only dot is the leading character (dotfiles have no
extension). -/
def extnameOfBase (b : List Char) : List Char :=
  let afterRev := b.reverse.takeWhile (fun c => c ≠ '.')
  if afterRev.length + 1 < b.length then '.' :: afterRev.reverse else []

/-- From `utils-script.js`: `path.basename(filePath, path.extname(filePath))`,
the basename with its own extension stripped. -/
def getPackageNameFromPath (filePath : String) : String :=
  let b := basenameChars filePath.data
  let e := extnameOfBase b
  ⟨b.take (b.length - e.length)⟩

/-! ## Data model -/

/-- Result of the external transpiler collaborator (`@swc/core`). -/
structure TransformResult where
  code : String
  map : Option String
deriving DecidableEq, Repr

/-- One module of the dependency graph (`process-script.js` node shape). -/
structure ModuleRecord where
  path : String
  code : String
  map : Option String
  dependencies : List String
deriving DecidableEq, Repr

/-- The configuration fields the bundler core consults (`build.js`
normalises many more, but only `cache` and `external` steer the embedded
functions; transpiler options are folded into `Env.transform`). -/
structure Config where
  cache : Bool
  external : List String
deriving DecidableEq, Repr

/-- External collaborators and the ambient file system.  `files` is the
disk: an association list from path to content; `fs.access` succeeds
exactly on its keys.  `transform` is the SWC transpiler applied to
`(sourceText, filename)`; `sha256` the content hash; `parseImports` the
regex-based import extractor of `imports-script.js` (its text-scanning
internals are irrelevant to every claim, so it is kept opaque);
`resolve`, `resolveOne`, `dirname`, `relative` are node `path`
operations. -/
structure Env where
  files : List (String × String)
  transform : String → String → TransformResult
  sha256 : String → String
  parseImports : String → List String
  resolve : String → String → String
  resolveOne : String → String
  dirname : String → String
  relative : String → String → String

/-- Does `fs.access` succeed on `p`? -/
def accessOk (env : Env) (p : String) : Bool :=
  (env.files.lookup p).isSome

/-- Errors surfaced by the embedded build functions.  `moduleNotFound`
carries the specifier and base directory like the `Error` thrown by
`resolvePath`; `fsError` models a rejected `fs.readFile`; `outOfFuel` is
the cutoff of the fuelled traversal loop and never occurs on a
terminating run. -/
inductive BuildErr
  | moduleNotFound (modulePath : String) (baseDir : String)
  | fsError (path : String)
  | outOfFuel
deriving DecidableEq, Repr

/-! ## Module resolver (`module-script.js`) -/

/-- The fixed extension search list of `resolvePath`. -/
def extensionList : List String :=
  [".js", ".jsx", ".ts", ".tsx", ".json", ""]

/-- Inner loop of `resolvePath`: try `candidate` with each extension in
order, returning the first path that exists on disk. -/
def tryExtensions (env : Env) (candidate : String) : List String → Option String
  | [] => none
  | ext :: rest =>
    let fullPath := if ext.isEmpty then candidate else candidate ++ ext
    if accessOk env fullPath then some fullPath else tryExtensions env candidate rest

/-- Outer loop of `resolvePath`: try each candidate base in order. -/
def tryCandidates (env : Env) : List String → Option String
  | [] => none
  | c :: rest =>
    match tryExtensions env c extensionList with
    | some p => some p
    | none => tryCandidates env rest

/-- From `module-script.js`: resolve a specifier against a base
directory, trying the plain candidate and then the implicit `/index`
candidate, each with every extension of the fixed list; throw when no
candidate exists. -/
def resolvePath (env : Env) (baseDir modulePath : String) : Except BuildErr String :=
  let candidates := [env.resolve baseDir modulePath, env.resolve baseDir (modulePath ++ "/index")]
  match tryCandidates env candidates with
  | some p => .ok p
  | none => .error (.moduleNotFound modulePath baseDir)

/-- Stated from the spec's words (§4.1), for comparison with the code:
the full candidate order is the specifier against the base directory
with each extension, then the same with an implicit `index` suffix and
each extension. -/
def specCandidateList (env : Env) (baseDir modulePath : String) : List String :=
  (extensionList.map (fun ext =>
      if ext.isEmpty then env.resolve baseDir modulePath
      else env.resolve baseDir modulePath ++ ext))
    ++ (extensionList.map (fun ext =>
      if ext.isEmpty then env.resolve baseDir (modulePath ++ "/index")
      else env.resolve baseDir (modulePath ++ "/index") ++ ext))

/-! ## External-dependency classification (`utils-script.js`) -/

/-- From `utils-script.js`: a path names an external dependency when its
extension-stripped basename is listed in `config.external`. -/
def isExternalDependency (config : Config) (filePath : String) : Bool :=
  config.external.contains (getPackageNameFromPath filePath)

/-! ## Cache-aware module fetch (`rebuild-script.js`, `hash-script.js`,
`process-script.js`) -/

/-- Observable I/O performed by the module fetch: a file read
(`fs.readFile`, also the one inside `hashFile`), a transpiler invocation,
an import extraction. -/
inductive IOEvent
  | readFile (path : String)
  | transformed (path : String)
  | parsedImports (code : String)
deriving DecidableEq, Repr

/-- Mutable state threaded through the build: the fingerprint cache, the
dependency graph (`Map` objects in `build.js`), and the accumulated I/O
event log.  Map `set` is modelled by shadowing cons, so `List.lookup`
returns the latest binding. -/
structure BState where
  cache : List (String × String)
  graph : List (String × ModuleRecord)
  events : List IOEvent
deriving DecidableEq, Repr

/-- `fs.readFile(p, 'utf8')`: returns the content and logs the read;
rejects when the path is absent. -/
def readFileE (env : Env) (p : String) (s : BState) : Except BuildErr (String × BState) :=
  match env.files.lookup p with
  | some content => .ok (content, { s with events := s.events ++ [.readFile p] })
  | none => .error (.fsError p)

/-- From `hash-script.js`: read the file's content and hash it. -/
def hashFile (env : Env) (p : String) (s : BState) : Except BuildErr (String × BState) := do
  let (content, s') ← readFileE env p s
  .ok (env.sha256 content, s')

/-- From `rebuild-script.js`: with caching disabled every call reports a
rebuild; otherwise hash the file, and on a fingerprint mismatch record
the new fingerprint and report a rebuild. -/
def needsRebuild (env : Env) (config : Config) (filePath : String) (s : BState) :
    Except BuildErr (Bool × BState) :=
  if !config.cache then .ok (true, s)
  else do
    let (hash, s') ← hashFile env filePath s
    if s'.cache.lookup filePath = some hash then .ok (false, s')
    else .ok (true, { s' with cache := (filePath, hash) :: s'.cache })

/-- Resolve every extracted specifier against the module's directory,
propagating the first failure (`process-script.js` rethrows it). -/
def resolveDeps (env : Env) (baseDir : String) : List String → Except BuildErr (List String)
  | [] => .ok []
  | dep :: rest => do
    let r ← resolvePath env baseDir dep
    let rs ← resolveDeps env baseDir rest
    .ok (r :: rs)

/-- The miss branch of `processFile`: read the file, invoke the
transpiler, extract imports from the transpiled output, resolve each,
and register the fresh record in the graph (replacing any prior one). -/
def rebuildModule (env : Env) (filePath : String) (s : BState) :
    Except BuildErr (ModuleRecord × BState) := do
  let (code, s₁) ← readFileE env filePath s
  let result := env.transform code filePath
  let s₂ := { s₁ with events := s₁.events ++ [IOEvent.transformed filePath] }
  let dependencies := env.parseImports result.code
  let s₃ := { s₂ with events := s₂.events ++ [IOEvent.parsedImports result.code] }
  let resolvedDeps ← resolveDeps env (env.dirname filePath) dependencies
  let node : ModuleRecord := ⟨filePath, result.code, result.map, resolvedDeps⟩
  .ok (node, { s₃ with graph := (filePath, node) :: s₃.graph })

/-- The stub synthesized for an external dependency: its code re-exports
the external name, its dependency list is empty, and the real file is
never read. -/
def externalStub (filePath : String) : ModuleRecord :=
  ⟨filePath,
   "module.exports = require(\x27" ++ getPackageNameFromPath filePath ++ "\x27);",
   none, []⟩

/-- From `process-script.js`: stub externals; otherwise consult
`needsRebuild`, and when no rebuild is needed and the graph already holds
a record for the path, return it unmodified; in every other case run the
miss branch. -/
def processFile (env : Env) (config : Config) (filePath : String) (s : BState) :
    Except BuildErr (ModuleRecord × BState) :=
  if isExternalDependency config filePath then
    .ok (externalStub filePath, s)
  else do
    let (rebuild, s') ← needsRebuild env config filePath s
    if rebuild = false then
      match s'.graph.lookup filePath with
      | some node => .ok (node, s')
      | none => rebuildModule env filePath s'
    else rebuildModule env filePath s'

/-! ## Supporting lemmas -/

theorem find?_append_or (p : α → Bool) (l₁ l₂ : List α) :
    (l₁ ++ l₂).find? p = ((l₁.find? p).orElse (fun _ => l₂.find? p)) := by
  induction l₁ with
  | nil => rfl
  | cons a l ih =>
    by_cases h : p a = true
    · simp [List.find?, h, Option.orElse]
    · simp only [Bool.not_eq_true] at h
      simp [List.find?, h, ih]

theorem tryExtensions_eq_find? (env : Env) (candidate : String) (exts : List String) :
    tryExtensions env candidate exts
      = (exts.map (fun ext => if ext.isEmpty then candidate else candidate ++ ext)).find?
          (fun p => accessOk env p) := by
  induction exts with
  | nil => rfl
  | cons e rest ih =>
    by_cases h : accessOk env (if e.isEmpty then candidate else candidate ++ e) = true
    · simp [tryExtensions, List.find?, h]
    · simp only [Bool.not_eq_true] at h
      simp [tryExtensions, List.find?, h, ih]

/-! ## Claim theorems: resolver and classification -/

/-- C7: `resolvePath` tries, in order, the specifier resolved against
the base directory with each extension of the fixed list (including no
extension), then the same with an implicit `index` suffix and each
extension, and returns the first candidate that exists on disk; when no
candidate exists, it fails with an error carrying the specifier and the
base directory. -/
theorem c7_resolvePath_search_order (env : Env) (baseDir modulePath : String) :
    resolvePath env baseDir modulePath
      = match (specCandidateList env baseDir modulePath).find? (fun p => accessOk env p) with
        | some p => .ok p
        | none => .error (.moduleNotFound modulePath baseDir) := by
  unfold resolvePath specCandidateList tryCandidates
  rw [find?_append_or, ← tryExtensions_eq_find?, ← tryExtensions_eq_find?]
  cases h₁ : tryExtensions env (env.resolve baseDir modulePath) extensionList with
  | some p => simp [h₁]
  | none =>
    cases h₂ : tryExtensions env (env.resolve baseDir (modulePath ++ "/index")) extensionList with
    | some p => simp [tryCandidates, h₁, h₂]
    | none => simp [tryCandidates, h₁, h₂]

/-- C10: `isExternalDependency` depends only on the extension-stripped
basename of the path: paths with equal stripped basenames classify
identically, and any path whose stripped basename is listed in
`config.external` is classified external regardless of its directory. -/
theorem c10_isExternal_basename_only :
    (∀ (config : Config) (p q : String),
        getPackageNameFromPath p = getPackageNameFromPath q →
        isExternalDependency config p = isExternalDependency config q)
    ∧ (∀ (config : Config) (p : String),
        config.external.contains (getPackageNameFromPath p) = true →
        isExternalDependency config p = true) := by
  constructor
  · intro config p q h
    simp [isExternalDependency, h]
  · intro config p h
    simpa [isExternalDependency] using h

/-- Witness for C10 at concrete paths: `/a/react.js` and
`/lib/vendor/react.ts` have the same stripped basename `react`, hence
classify identically, and a local file `/some/dir/react.js` is external
under `external = ["react"]`. -/
theorem c10_witness :
    (isExternalDependency ⟨true, ["react"]⟩ "/a/react.js"
       = isExternalDependency ⟨true, ["react"]⟩ "/lib/vendor/react.ts")
    ∧ isExternalDependency ⟨true, ["react"]⟩ "/some/dir/react.js" = true :=
  ⟨c10_isExternal_basename_only.1 ⟨true, ["react"]⟩ "/a/react.js" "/lib/vendor/react.ts" (by decide),
   c10_isExternal_basename_only.2 ⟨true, ["react"]⟩ "/some/dir/react.js" (by decide)⟩

/-! ## Claim C1: cache-hit and cache-disabled behaviour of `processFile` -/

/-- A tiny concrete environment for exercising `processFile`: one file
`/src/a.js` on disk, an identity-like transpiler, and a visibly tagged
hash function. -/
def envC1 : Env :=
  { files := [("/src/a.js", "SRC")]
  , transform := fun code _ => ⟨code, none⟩
  , sha256 := fun content => "#" ++ content
  , parseImports := fun _ => []
  , resolve := fun baseDir modulePath => baseDir ++ "/" ++ modulePath
  , resolveOne := fun p => p
  , dirname := fun _ => "/src"
  , relative := fun _ p => p }

/-- The record already stored in the graph for `/src/a.js`. -/
def c1Record : ModuleRecord := ⟨"/src/a.js", "OLD-COMPILED", none, []⟩

/-- A state in which the cached fingerprint of `/src/a.js` matches its
current content and the graph holds a record for it. -/
def c1State : BState :=
  ⟨[("/src/a.js", "#SRC")], [("/src/a.js", c1Record)], []⟩

/-- C1 is false as stated: at a cache hit (`cache` enabled, fingerprint
unchanged, record in graph) `processFile` does return the existing record
unmodified, but the run still reads the file — the fingerprint
computation in `hashFile` performs `fs.readFile` — so the cache hit is
not "without reading the file". -/
theorem c1_counterexample :
    processFile envC1 ⟨true, []⟩ "/src/a.js" c1State
      = .ok (c1Record, { c1State with events := [IOEvent.readFile "/src/a.js"] })
    ∧ IOEvent.readFile "/src/a.js" ∈ [IOEvent.readFile "/src/a.js"] := by
  constructor
  · rfl
  · decide

/-- C1 (amended): when caching is enabled, the cached fingerprint equals
the hash of the current content, and the graph already holds a record for
the path, `processFile` returns that record unmodified with no transpiler
invocation and no import re-extraction — the only I/O is the single file
read performed by the fingerprint computation; and when caching is
disabled, every invocation for a non-external path is treated as a miss,
running the full read-and-transform branch. -/
theorem c1_processFile_cache :
    (∀ (env : Env) (config : Config) (p content : String) (node : ModuleRecord) (s : BState),
        config.cache = true →
        isExternalDependency config p = false →
        env.files.lookup p = some content →
        s.cache.lookup p = some (env.sha256 content) →
        s.graph.lookup p = some node →
        processFile env config p s
          = .ok (node, { s with events := s.events ++ [.readFile p] }))
    ∧ (∀ (env : Env) (config : Config) (p : String) (s : BState),
        config.cache = false →
        isExternalDependency config p = false →
        processFile env config p s = rebuildModule env p s) := by
  constructor
  · intro env config p content node s hc hext hfile hfp hgraph
    simp [processFile, needsRebuild, hashFile, readFileE, Bind.bind, Except.bind,
          hc, hext, hfile, hfp, hgraph]
  · intro env config p s hc hext
    simp [processFile, needsRebuild, Bind.bind, Except.bind, hc, hext]

/-- Witness for C1 at concrete inputs: the cache-hit clause applied to
`envC1`'s stored record, and the cache-disabled clause applied to the
same file. -/
theorem c1_witness :
    processFile envC1 ⟨true, []⟩ "/src/a.js" c1State
      = .ok (c1Record, { c1State with events := [IOEvent.readFile "/src/a.js"] })
    ∧ processFile envC1 ⟨false, []⟩ "/src/a.js" c1State
      = rebuildModule envC1 "/src/a.js" c1State :=
  ⟨c1_processFile_cache.1 envC1 ⟨true, []⟩ "/src/a.js" "SRC" c1Record c1State
     rfl (by decide) rfl rfl rfl,
   c1_processFile_cache.2 envC1 ⟨false, []⟩ "/src/a.js" c1State rfl (by decide)⟩

/-! ## Dependency graph builder (`graph-script.js`) -/

/-- The traversal loop of `buildDependencyGraph`.  The JS work queue is
used as a stack (`queue.pop()` removes the last element, `queue.push`
appends), so it is modelled head-first: popping takes the head and
pushing a node's dependencies prepends them reversed.  `visited`
accumulates paths in `Set` insertion order.  `fuel` bounds the number of
loop iterations; a run that drains the stack never sees `outOfFuel`. -/
def buildLoop (env : Env) (config : Config) :
    Nat → List String → List String → BState → Except BuildErr (List String × BState)
  | 0, stack, visited, s =>
    match stack with
    | [] => .ok (visited, s)
    | _ :: _ => .error .outOfFuel
  | fuel + 1, stack, visited, s =>
    match stack with
    | [] => .ok (visited, s)
    | current :: rest =>
      if visited.contains current then buildLoop env config fuel rest visited s
      else do
        let (node, s') ← processFile env config current s
        buildLoop env config fuel (node.dependencies.reverse ++ rest) (visited ++ [current]) s'

/-- From `graph-script.js`: seed the stack with the resolved entry path,
drain it, and return `[...visited].map(f => graph.get(f))` — note that a
visited path with no graph record yields an absent (`none`) element, as
`Map.get` yields `undefined`. -/
def buildDependencyGraph (env : Env) (config : Config) (entryPath : String) (fuel : Nat)
    (s : BState) : Except BuildErr (List (Option ModuleRecord) × BState) := do
  let (visited, s') ← buildLoop env config fuel [env.resolveOne entryPath] [] s
  .ok (visited.map (fun f => s'.graph.lookup f), s')

/-! ## Claim C4: stub records of externals are dropped from the result -/

/-- An environment with an empty disk; the entry path itself is
classified external, so `processFile` synthesizes a stub without
touching the disk. -/
def envC4 : Env :=
  { files := []
  , transform := fun code _ => ⟨code, none⟩
  , sha256 := fun content => "#" ++ content
  , parseImports := fun _ => []
  , resolve := fun baseDir modulePath => baseDir ++ "/" ++ modulePath
  , resolveOne := fun p => p
  , dirname := fun _ => "/"
  , relative := fun _ p => p }

/-- The configuration for C4: `app` is declared external, so the entry
`/app.js` (stripped basename `app`) is classified external. -/
def configC4 : Config := ⟨true, ["app"]⟩

/-- C4 is violated by the code: `processFile` does synthesize the stub
record for the external path `/app.js`, but never registers it in the
graph, so `buildDependencyGraph` — which maps every visited path through
`graph.get` — returns an array whose only element is absent
(`undefined` in JS) instead of the stub. -/
theorem c4_external_stub_dropped :
    processFile envC4 configC4 "/app.js" ⟨[], [], []⟩
      = .ok (externalStub "/app.js", ⟨[], [], []⟩)
    ∧ buildDependencyGraph envC4 configC4 "/app.js" 5 ⟨[], [], []⟩
      = .ok ([none], ⟨[], [], []⟩) := by
  constructor
  · rfl
  · rfl

/-! ## Claim C5: a cyclic import graph terminates and is complete -/

/-- Environment for the cyclic scenario: three modules on disk where
`a.js` imports `./b.js`, `b.js` imports `./c.js`, and `c.js` imports
`./a.js`.  The transpiler is the identity on the code text, the import
extractor returns the single `require` specifier each file contains, and
`resolve` joins a `./`-relative specifier onto the base directory. -/
def envC5 : Env :=
  { files :=
      [ ("/src/a.js", "require(\x27./b.js\x27);")
      , ("/src/b.js", "require(\x27./c.js\x27);")
      , ("/src/c.js", "require(\x27./a.js\x27);") ]
  , transform := fun code _ => ⟨code, none⟩
  , sha256 := fun content => "#" ++ content
  , parseImports := fun code =>
      if code = "require(\x27./b.js\x27);" then ["./b.js"]
      else if code = "require(\x27./c.js\x27);" then ["./c.js"]
      else if code = "require(\x27./a.js\x27);" then ["./a.js"]
      else []
  , resolve := fun baseDir modulePath =>
      if beginsWith "./".data modulePath.data
      then baseDir ++ "/" ++ ⟨modulePath.data.drop 2⟩
      else baseDir ++ "/" ++ modulePath
  , resolveOne := fun p => p
  , dirname := fun _ => "/src"
  , relative := fun _ p => p }

/-- C5: building the graph for the cyclic entry `/src/a.js` terminates
(the traversal drains its stack within finite fuel, never hitting the
cutoff) and returns exactly three module records — none absent, with
pairwise distinct paths — whose dependency lists are fully populated
and cyclic: a → b → c → a. -/
theorem c5_cycle_terminates_complete :
    (buildDependencyGraph envC5 ⟨true, []⟩ "/src/a.js" 10 ⟨[], [], []⟩).toOption.map
        (fun r => r.1.map (Option.map (fun m => (m.path, m.dependencies))))
      = some
          [ some ("/src/a.js", ["/src/b.js"])
          , some ("/src/b.js", ["/src/c.js"])
          , some ("/src/c.js", ["/src/a.js"]) ] := by
  rfl

/-! ## Task pipeline scheduler (`Bundler.js` `#queueTask`) -/

/-- Scheduler state: the `#activeBuilds` set, the `#pendingQueue` set,
and a log of stage-body starts (each entry is one execution of `task()`).
Tasks are identified by name; `Set` membership is list membership. -/
structure SchedState where
  activeBuilds : List String
  pendingQueue : List String
  runLog : List String
deriving DecidableEq, Repr

/-- The entry of `#queueTask`: a task already in `#activeBuilds` makes
the invocation return immediately — nothing is recorded anywhere — and
otherwise the task is added to `#activeBuilds` and its body starts
(logged).  The boolean reports whether the body started. -/
def queueTaskEnter (task : String) (s : SchedState) : SchedState × Bool :=
  if s.activeBuilds.contains task then (s, false)
  else (⟨task :: s.activeBuilds, s.pendingQueue, s.runLog ++ [task]⟩, true)

/-- Full `#queueTask` for a synchronous task body: enter, run the body,
then the `finally` block — remove the task from `#activeBuilds` and, when
`#pendingQueue` is non-empty, pop its first element and re-enter
`#queueTask` on it.  `fuel` bounds the drain recursion (the pending queue
only shrinks, so `pendingQueue.length + 1` always suffices). -/
def queueTask : Nat → String → SchedState → SchedState
  | 0, _, s => s
  | fuel + 1, task, s =>
    match queueTaskEnter task s with
    | (s₁, false) => s₁
    | (s₁, true) =>
      let s₂ : SchedState := ⟨s₁.activeBuilds.erase task, s₁.pendingQueue, s₁.runLog⟩
      match s₂.pendingQueue with
      | [] => s₂
      | next :: restQ => queueTask fuel next ⟨s₂.activeBuilds, restQ, s₂.runLog⟩

/-- The `finally` block of an invocation whose body just finished:
remove the task from `#activeBuilds`, then drain one pending entry if
any. -/
def queueTaskFinally (fuel : Nat) (task : String) (s : SchedState) : SchedState :=
  let s₁ : SchedState := ⟨s.activeBuilds.erase task, s.pendingQueue, s.runLog⟩
  match s₁.pendingQueue with
  | [] => s₁
  | next :: restQ => queueTask fuel next ⟨s₁.activeBuilds, restQ, s₁.runLog⟩

/-- C2 is violated by the code: a second `#queueTask` invocation for a
stage that is already running does not start the stage again — but it
also records nothing: `#pendingQueue` is never populated anywhere, so
when the running invocation completes its `finally` block finds the
queue empty and no follow-up run happens.  The stage's body runs exactly
once overall, not twice. -/
theorem c2_second_invocation_dropped :
    queueTaskEnter "processScripts" ⟨[], [], []⟩
      = (⟨["processScripts"], [], ["processScripts"]⟩, true)
    ∧ queueTaskEnter "processScripts" ⟨["processScripts"], [], ["processScripts"]⟩
      = (⟨["processScripts"], [], ["processScripts"]⟩, false)
    ∧ queueTaskFinally 5 "processScripts" ⟨["processScripts"], [], ["processScripts"]⟩
      = ⟨[], [], ["processScripts"]⟩ :=
  ⟨rfl, rfl, rfl⟩

/-! ## Watch loop (`Bundler.js` `#processChanges`) -/

/-- The rebuild flag and pending-change set owned by the watch loop. -/
structure WatchState where
  activeRebuild : Bool
  pendingChanges : List String
deriving DecidableEq, Repr

/-- The watcher event handler `handleChange`: the changed path is added
to the pending set (the debounce-timer reset is pure timing and carries
no further state). -/
def handleChange (filePath : String) (w : WatchState) : WatchState :=
  ⟨w.activeRebuild, w.pendingChanges ++ [filePath]⟩

/-- From `#processChanges`: return immediately when a rebuild is active
or nothing is pending; otherwise raise the flag, drain the pending set
into one rebuild batch, run the pass, and in the `finally` block lower
the flag and re-invoke once when new changes accumulated meanwhile.
`arrivals` lists, per rebuild pass, the paths added by watch events
while that pass was running.  The result pairs the final state with the
drained batch of every rebuild pass, in order. -/
def processChanges (arrivals : List (List String)) (w : WatchState) :
    WatchState × List (List String) :=
  if w.activeRebuild || w.pendingChanges.isEmpty then (w, [])
  else
    let changed := w.pendingChanges
    match arrivals with
    | [] => (⟨false, []⟩, [changed])
    | during :: restArr =>
      if during.isEmpty then (⟨false, during⟩, [changed])
      else
        let (w', rest) := processChanges restArr ⟨false, during⟩
        (w', changed :: rest)

/-- C3: while a rebuild is in flight, a change event only accumulates its
path into the pending set and a `#processChanges` invocation starts no
second rebuild (no batch is drained, the state is untouched); once the
in-flight pass completes, a non-empty pending set is processed in exactly
one follow-up pass per drain, and an empty one triggers none. -/
theorem c3_rebuild_exclusivity :
    (∀ (arrivals : List (List String)) (w : WatchState) (p : String),
        w.activeRebuild = true →
        (handleChange p w).pendingChanges = w.pendingChanges ++ [p]
        ∧ processChanges arrivals (handleChange p w) = (handleChange p w, []))
    ∧ (∀ (p₀ a : List String), p₀ ≠ [] → a ≠ [] →
        processChanges [a] ⟨false, p₀⟩ = (⟨false, []⟩, [p₀, a]))
    ∧ (∀ (p₀ : List String), p₀ ≠ [] →
        processChanges [] ⟨false, p₀⟩ = (⟨false, []⟩, [p₀])) := by
  refine ⟨?_, ?_, ?_⟩
  · intro arrivals w p h
    exact ⟨rfl, by simp [processChanges, handleChange, h]⟩
  · intro p₀ a h₀ ha
    simp [processChanges, h₀, ha]
  · intro p₀ h₀
    simp [processChanges, h₀]

/-- Witness for C3 at concrete inputs: an event for `/x.css` arriving
while a rebuild is in flight only accumulates, and a pending change to
`/y.js` is drained in one pass with one follow-up pass for the paths
that arrived during it. -/
theorem c3_witness :
    ((handleChange "/x.css" ⟨true, ["/y.js"]⟩).pendingChanges = ["/y.js"] ++ ["/x.css"]
      ∧ processChanges [["/z.js"]] (handleChange "/x.css" ⟨true, ["/y.js"]⟩)
          = (handleChange "/x.css" ⟨true, ["/y.js"]⟩, []))
    ∧ processChanges [["/x.css"]] ⟨false, ["/y.js"]⟩ = (⟨false, []⟩, [["/y.js"], ["/x.css"]])
    ∧ processChanges [] ⟨false, ["/y.js"]⟩ = (⟨false, []⟩, [["/y.js"]]) :=
  ⟨c3_rebuild_exclusivity.1 [["/z.js"]] ⟨true, ["/y.js"]⟩ "/x.css" rfl,
   c3_rebuild_exclusivity.2.1 ["/y.js"] ["/x.css"] (by decide) (by decide),
   c3_rebuild_exclusivity.2.2 ["/y.js"] (by decide)⟩

/-! ## Styles stage (`Bundler.js` `#processStyles`, `#clearOldCssBundles`) -/

/-- One entry of the styles cache: the latest source mtime and the
content hash used in the emitted filename. -/
structure StylesCacheEntry where
  mtime : String
  hash : String
deriving DecidableEq, Repr

/-- State owned by the styles stage: the filenames present in the output
directory and the styles cache. -/
structure StylesState where
  outFiles : List String
  stylesCache : List (String × StylesCacheEntry)
deriving DecidableEq, Repr

/-- Does an output-directory filename match the glob `styles-*.css`? -/
def isStylesBundleName (name : String) : Bool :=
  beginsWith "styles-".data name.data && finishesWith ".css".data name.data

/-- From `#clearOldCssBundles`: unlink every `styles-*.css` file in the
output directory. -/
def clearOldCssBundles (outFiles : List String) : List String :=
  outFiles.filter (fun f => !(isStylesBundleName f))

/-- The styles cache key: the source basenames joined with `|`. -/
def stylesCacheKey (cssFiles : List String) : String :=
  String.intercalate "|" (cssFiles.map (fun f => ⟨basenameChars f.data⟩))

/-- From `#processStyles`: nothing happens without style sources; with
caching enabled, a cached entry for the key whose recorded mtime equals
the latest source mtime skips the pass; otherwise the compiled CSS (the
external compile/postcss chain, abstracted as the input `processedCss`)
is hashed, every old `styles-*.css` is removed, the new content-hashed
bundle is written and the cache entry replaced.  Returns the new state
and whether a bundle was written. -/
def processStyles (env : Env) (cacheEnabled : Bool) (cssFiles : List String)
    (latestMtime processedCss : String) (st : StylesState) : StylesState × Bool :=
  if cssFiles.isEmpty then (st, false)
  else
    let cacheKey := stylesCacheKey cssFiles
    let hit := cacheEnabled &&
      (match st.stylesCache.lookup cacheKey with
       | some e => e.mtime == latestMtime
       | none => false)
    if hit then (st, false)
    else
      let cssHash := (env.sha256 processedCss).take 8
      let outputFile := "styles-" ++ cssHash ++ ".css"
      (⟨outputFile :: clearOldCssBundles st.outFiles,
        (cacheKey, ⟨latestMtime, cssHash⟩) :: st.stylesCache⟩, true)

/-! ## Supporting lemmas for C8 -/

theorem beginsWith_append (pat rest : List Char) : beginsWith pat (pat ++ rest) = true := by
  induction pat with
  | nil => rfl
  | cons c cs ih => simp [beginsWith, ih]

theorem finishesWith_append (pat rest : List Char) :
    finishesWith pat (rest ++ pat) = true := by
  simp only [finishesWith, List.reverse_append]
  exact beginsWith_append pat.reverse rest.reverse

theorem filter_not_self (p : α → Bool) (l : List α) :
    (l.filter (fun a => !(p a))).filter p = [] := by
  induction l with
  | nil => rfl
  | cons a l ih =>
    by_cases h : p a = true
    · simp [List.filter, h, ih]
    · simp only [Bool.not_eq_true] at h
      simp [List.filter, h, ih]

theorem isStylesBundleName_hashed (h : String) :
    isStylesBundleName ("styles-" ++ h ++ ".css") = true := by
  have hdata : ("styles-" ++ h ++ ".css").data = "styles-".data ++ (h.data ++ ".css".data) := by
    cases h with
    | mk l => simp [String.data]
  have h₁ : beginsWith "styles-".data ("styles-" ++ h ++ ".css").data = true := by
    rw [hdata]; exact beginsWith_append _ _
  have h₂ : finishesWith ".css".data ("styles-" ++ h ++ ".css").data = true := by
    rw [hdata, ← List.append_assoc]; exact finishesWith_append _ _
  unfold isStylesBundleName
  rw [h₁, h₂]
  rfl

/-! ## Claim C8: exactly one styles bundle after every writing pass -/

/-- C8: whenever a styles pass writes a new bundle, every previously
emitted `styles-*.css` artifact was removed beforehand, so exactly one
`styles-<hash>.css` file — the newly written one — exists in the output
directory afterwards; in particular two builds with differing content
leave exactly one such file. -/
theorem c8_single_styles_bundle (env : Env) (cacheEnabled : Bool) (cssFiles : List String)
    (latestMtime processedCss : String) (st : StylesState)
    (hwrote : (processStyles env cacheEnabled cssFiles latestMtime processedCss st).2 = true) :
    ((processStyles env cacheEnabled cssFiles latestMtime processedCss st).1.outFiles.filter
        isStylesBundleName)
      = ["styles-" ++ (env.sha256 processedCss).take 8 ++ ".css"] := by
  unfold processStyles at hwrote ⊢
  by_cases hempty : cssFiles.isEmpty = true
  · simp [hempty] at hwrote
  · simp only [Bool.not_eq_true] at hempty
    simp only [hempty] at hwrote ⊢
    by_cases hhit : (cacheEnabled &&
        (match st.stylesCache.lookup (stylesCacheKey cssFiles) with
         | some e => e.mtime == latestMtime
         | none => false)) = true
    · simp [hhit] at hwrote
    · simp only [Bool.not_eq_true] at hhit
      simp [hhit, clearOldCssBundles, List.filter, isStylesBundleName_hashed,
            filter_not_self]

/-- Witness for C8: a second build over the same source with different
content writes a second hash and leaves exactly that one bundle file. -/
theorem c8_witness :
    ((processStyles ⟨[], fun c _ => ⟨c, none⟩, fun c => c ++ c, fun _ => [], fun b m => b ++ m,
        fun p => p, fun _ => "/", fun _ p => p⟩ true ["a.css"] "2" "NEWCSS"
        (processStyles ⟨[], fun c _ => ⟨c, none⟩, fun c => c ++ c, fun _ => [], fun b m => b ++ m,
          fun p => p, fun _ => "/", fun _ p => p⟩ true ["a.css"] "1" "OLDCSS"
          ⟨[], []⟩).1).1.outFiles.filter isStylesBundleName)
      = ["styles-" ++ (("NEWCSS" ++ "NEWCSS" : String).take 8) ++ ".css"] :=
  c8_single_styles_bundle
    ⟨[], fun c _ => ⟨c, none⟩, fun c => c ++ c, fun _ => [], fun b m => b ++ m,
      fun p => p, fun _ => "/", fun _ p => p⟩ true ["a.css"] "2" "NEWCSS"
    (processStyles ⟨[], fun c _ => ⟨c, none⟩, fun c => c ++ c, fun _ => [], fun b m => b ++ m,
        fun p => p, fun _ => "/", fun _ p => p⟩ true ["a.css"] "1" "OLDCSS" ⟨[], []⟩).1
    (by decide)

/-! ## Bundle generation (`generate-script.js`) -/

/-- Strip a `.js`, `.jsx`, `.ts` or `.tsx` suffix (the regex
`\.(js|ts)x?$` of `normalizeModuleId`). -/
def stripJsLikeExt (s : String) : String :=
  if finishesWith ".jsx".data s.data then ⟨s.data.take (s.data.length - 4)⟩
  else if finishesWith ".tsx".data s.data then ⟨s.data.take (s.data.length - 4)⟩
  else if finishesWith ".js".data s.data then ⟨s.data.take (s.data.length - 3)⟩
  else if finishesWith ".ts".data s.data then ⟨s.data.take (s.data.length - 3)⟩
  else s

/-- From `utils-script.js`: the module id is the path made relative to
the base directory, separators normalised, script extension stripped,
prefixed with `./`. -/
def normalizeModuleId (env : Env) (filePath baseDir : String) : String :=
  "./" ++ stripJsLikeExt ((env.relative baseDir filePath).replace "\\" "/")

/-- JS `Map.set` on an insertion-ordered association list: an existing
key keeps its position and gets the new value; a new key is appended. -/
def mapSet (k : String) (v : ModuleRecord) :
    List (String × ModuleRecord) → List (String × ModuleRecord)
  | [] => [(k, v)]
  | (k', v') :: rest => if k' = k then (k, v) :: rest else (k', v') :: mapSet k v rest

/-- The `moduleMap` both generators build: every record keyed by its
normalized module id, in first-insertion order. -/
def buildModuleMap (env : Env) (modules : List ModuleRecord) (baseDir : String) :
    List (String × ModuleRecord) :=
  modules.foldl (fun acc m => mapSet (normalizeModuleId env m.path baseDir) m acc) []

/-- The IIFE prologue emitted by `generateIIFEBundle`. -/
def iifeHeader : String :=
  "(function() \x7b\n  \x27use strict\x27;\n\n  const modules = new Map();\n\n"

/-- The synthesized `require` emitted into every IIFE bundle, verbatim
from the template in `generate-script.js`. -/
def iifeRequireFn : String :=
  "  function require(moduleId) \x7b\n"
  ++ "    if (!modules.has(moduleId)) \x7b\n"
  ++ "      throw new Error(\x27Module not found: \x27 + moduleId);\n"
  ++ "    \x7d\n"
  ++ "    const module = modules.get(moduleId);\n"
  ++ "    if (module.cache) return module.cache.exports;\n"
  ++ "    const exports = \x7b\x7d;\n"
  ++ "    module.cache = \x7b exports \x7d;\n"
  ++ "    module.factory(exports, require);\n"
  ++ "    return exports;\n"
  ++ "  \x7d\n\n"

/-- One registry entry of the IIFE bundle: the module's code wrapped in a
factory receiving `(exports, require)`. -/
def renderIIFEModule (id : String) (m : ModuleRecord) : String :=
  "  // Module: " ++ id ++ "\n"
  ++ "  modules.set(\x27" ++ id ++ "\x27, \x7b\n"
  ++ "    factory: function(exports, require) \x7b\n"
  ++ m.code.replace "\n" "\n      " ++ "\n"
  ++ "    \x7d\n  \x7d);\n\n"

/-- The closing lines of the IIFE bundle: the entry module is required
last, unconditionally, exactly once, then the closure is invoked. -/
def iifeEntryCall (entryId : String) : String :=
  "  // Entry point\n  require(\x27" ++ entryId ++ "\x27);\n\x7d)();"

/-- A bundle as returned by `generateIIFEBundle`. -/
structure BundleOut where
  code : String
  map : Option String
deriving DecidableEq, Repr

/-- From `generate-script.js`: key every module by its normalized id,
emit the registry/loader closure, and carry over the source map of the
record whose path equals the entry path (absent when no record matches,
like the optional-chained `find` in the source). -/
def generateIIFEBundle (env : Env) (modules : List ModuleRecord) (entryPath : String) :
    BundleOut :=
  let baseDir := env.dirname entryPath
  let moduleMap := buildModuleMap env modules baseDir
  let entryId := normalizeModuleId env entryPath baseDir
  let code := iifeHeader ++ iifeRequireFn
    ++ String.join (moduleMap.map (fun kv => renderIIFEModule kv.1 kv.2))
    ++ iifeEntryCall entryId
  ⟨code, (modules.find? (fun m => m.path == entryPath)).bind ModuleRecord.map⟩

/-- Attempt to parse, at the position right after a literal `require(`,
a quote, a non-empty quote-free specifier, a quote and a closing
parenthesis — the shape matched by the regex
`require\(['"]([^'"]+)['"]\)` (the two quotes may differ, as in the
regex).  Returns the specifier and the remaining text. -/
def isQuoteChar (c : Char) : Bool :=
  c = Char.ofNat 39 || c = Char.ofNat 34

def splitRequireArg (cs : List Char) : Option (String × List Char) :=
  match cs with
  | [] => none
  | q :: rest =>
    if isQuoteChar q then
      let spec := rest.takeWhile (fun c => !(isQuoteChar c))
      match spec, rest.dropWhile (fun c => !(isQuoteChar c)) with
      | [], _ => none
      | _ :: _, q₂ :: ')' :: tail =>
        if isQuoteChar q₂ then some (⟨spec⟩, tail) else none
      | _ :: _, _ => none
    else none

/-- Left-to-right global replacement of every `require('spec')` match by
`repl spec`, as performed by `String.replace` with the regex above. -/
def rewriteRequiresAux (repl : String → String) : Nat → List Char → List Char
  | 0, cs => cs
  | fuel + 1, cs =>
    match cs with
    | [] => []
    | c :: rest =>
      if beginsWith "require(".data cs then
        match splitRequireArg (cs.drop 8) with
        | some (spec, tail) => (repl spec).data ++ rewriteRequiresAux repl fuel tail
        | none => c :: rewriteRequiresAux repl fuel rest
      else c :: rewriteRequiresAux repl fuel rest

/-- String-level wrapper of the `require(...)` rewrite. -/
def rewriteRequires (repl : String → String) (code : String) : String :=
  ⟨rewriteRequiresAux repl code.data.length code.data⟩

/-- The synthetic top-level binding name of a module in the ESM-like
bundle: its id with separators replaced by `$`. -/
def esBinding (id : String) : String := id.replace "/" "$"

/-- One module of the ESM-like bundle: an immediately-invoked block with
in-module `require` calls rewritten to placeholder dynamic imports of the
sibling's id. -/
def renderESModule (env : Env) (baseDir : String) (id : String) (m : ModuleRecord) : String :=
  let moduleCode := rewriteRequires (fun depPath =>
      "import(\x27"
        ++ normalizeModuleId env (env.resolve (env.dirname m.path) depPath) baseDir
        ++ "\x27)") m.code
  "// " ++ id ++ "\n"
  ++ "const " ++ esBinding id ++ " = (() => \x7b\n"
  ++ moduleCode ++ "\n"
  ++ "\x7d)();\n\n"

/-- A bundle as returned by `generateESBundle`, with its sidecar import
map from module id to synthetic binding reference. -/
structure ESBundleOut where
  code : String
  map : Option String
  importMap : List (String × String)
deriving DecidableEq, Repr

/-- From `generate-script.js`: the ESM-flavoured concatenation strategy,
exporting the entry binding last and carrying over the entry record's
source map exactly as the IIFE strategy does. -/
def generateESBundle (env : Env) (modules : List ModuleRecord) (entryPath : String) :
    ESBundleOut :=
  let baseDir := env.dirname entryPath
  let moduleMap := buildModuleMap env modules baseDir
  let entryId := normalizeModuleId env entryPath baseDir
  let code := String.join (moduleMap.map (fun kv => renderESModule env baseDir kv.1 kv.2))
    ++ "// Entry point\nexport default " ++ esBinding entryId ++ ";\n"
  let importMap := moduleMap.map (fun kv =>
    (kv.1, "./" ++ (⟨basenameChars entryPath.data⟩ : String) ++ ".js#" ++ esBinding kv.1))
  ⟨code, (modules.find? (fun m => m.path == entryPath)).bind ModuleRecord.map, importMap⟩

/-! ## Semantics of the emitted IIFE loader

The loader's behaviour is modelled from the template text emitted by
`generateIIFEBundle` (`iifeRequireFn`): a factory is abstracted to the
ordered list of ids its body passes to `require`, and the state tracks
which modules own a cache slot plus the order of factory invocations. -/

/-- A registered factory of the emitted bundle, abstracted to the ids it
requires. -/
structure RTFactory where
  reqs : List String
deriving DecidableEq, Repr

/-- Runtime state of the loader: ids whose cache slot
(`module.cache = \x7b exports \x7d`) exists, and the factory-invocation
log in order. -/
structure RTState where
  cached : List String
  evalLog : List String
deriving DecidableEq, Repr

/-- The emitted `require`, from its template: an id missing from the
registry throws `Module not found`; an id with a cache slot returns its
memoized exports with no further effect; otherwise the cache slot is
recorded first and only then the factory runs, evaluating its own
requires in order.  `fuel` bounds the require-chain depth. -/
def requireRT (registry : List (String × RTFactory)) :
    Nat → String → RTState → Except String RTState
  | 0, _, _ => .error "out of fuel"
  | fuel + 1, moduleId, st =>
    match registry.lookup moduleId with
    | none => .error ("Module not found: " ++ moduleId)
    | some fac =>
      if st.cached.contains moduleId then .ok st
      else
        fac.reqs.foldlM (fun acc r => requireRT registry fuel r acc)
          ⟨moduleId :: st.cached, st.evalLog ++ [moduleId]⟩

/-- Executing the emitted bundle: the registry is fully populated, then
the entry module is required last, unconditionally, exactly once, on an
empty cache. -/
def executeIIFE (registry : List (String × RTFactory)) (entryId : String) (fuel : Nat) :
    Except String RTState :=
  requireRT registry fuel entryId ⟨[], []⟩

/-! ## Claim C6: lazy, memoized, single-evaluation loader semantics -/

/-- C6: the emitted loader throws at runtime when the required id is
absent from the registry; a module whose cache slot exists is returned
memoized with no factory re-run; on a first require the cache slot is
recorded before the factory is invoked; the generated bundle text ends
with the unconditional entry require; and executing the bundle for entry
`a` requiring `./b` twice evaluates `b`'s factory exactly once. -/
theorem c6_iife_loader_semantics :
    (∀ (registry : List (String × RTFactory)) (fuel : Nat) (moduleId : String) (st : RTState),
        registry.lookup moduleId = none →
        requireRT registry (fuel + 1) moduleId st
          = .error ("Module not found: " ++ moduleId))
    ∧ (∀ (registry : List (String × RTFactory)) (fuel : Nat) (moduleId : String) (st : RTState)
          (fac : RTFactory),
        registry.lookup moduleId = some fac →
        st.cached.contains moduleId = true →
        requireRT registry (fuel + 1) moduleId st = .ok st)
    ∧ (∀ (registry : List (String × RTFactory)) (fuel : Nat) (moduleId : String) (st : RTState)
          (fac : RTFactory),
        registry.lookup moduleId = some fac →
        st.cached.contains moduleId = false →
        requireRT registry (fuel + 1) moduleId st
          = fac.reqs.foldlM (fun acc r => requireRT registry fuel r acc)
              ⟨moduleId :: st.cached, st.evalLog ++ [moduleId]⟩)
    ∧ (∀ (env : Env) (modules : List ModuleRecord) (entryPath : String),
        ∃ pre, (generateIIFEBundle env modules entryPath).code
          = pre ++ iifeEntryCall (normalizeModuleId env entryPath (env.dirname entryPath)))
    ∧ (executeIIFE [("./a", ⟨["./b", "./b"]⟩), ("./b", ⟨[]⟩)] "./a" 5
        = .ok ⟨["./b", "./a"], ["./a", "./b"]⟩
      ∧ (executeIIFE [("./a", ⟨["./b", "./b"]⟩), ("./b", ⟨[]⟩)] "./a" 5).toOption.map
          (fun st => st.evalLog.count "./b") = some 1) := by
  refine ⟨?_, ?_, ?_, ?_, rfl, rfl⟩
  · intro registry fuel moduleId st h
    simp [requireRT, h]
  · intro registry fuel moduleId st fac h hc
    have hmem : moduleId ∈ st.cached := by simpa using hc
    simp [requireRT, h, hmem]
  · intro registry fuel moduleId st fac h hc
    have hmem : moduleId ∉ st.cached := by simpa using hc
    simp [requireRT, h, hmem]
  · intro env modules entryPath
    exact ⟨iifeHeader ++ iifeRequireFn
      ++ String.join ((buildModuleMap env modules (env.dirname entryPath)).map
          (fun kv => renderIIFEModule kv.1 kv.2)), rfl⟩

/-- Witness for C6 at concrete inputs: requiring an unregistered id
throws, a cached id is returned without re-evaluation, a first require
caches before running the factory, and a concrete bundle's text ends
with the entry require. -/
theorem c6_witness :
    requireRT [] 1 "./ghost" ⟨[], []⟩ = .error ("Module not found: " ++ "./ghost")
    ∧ requireRT [("./b", ⟨[]⟩)] 1 "./b" ⟨["./b"], ["./b"]⟩ = .ok ⟨["./b"], ["./b"]⟩
    ∧ requireRT [("./b", ⟨[]⟩)] 1 "./b" ⟨[], []⟩
        = ([] : List String).foldlM (fun acc r => requireRT [("./b", ⟨[]⟩)] 0 r acc)
            ⟨["./b"], ["./b"]⟩
    ∧ ∃ pre, (generateIIFEBundle envC1 [] "/src/a.js").code
        = pre ++ iifeEntryCall (normalizeModuleId envC1 "/src/a.js" (envC1.dirname "/src/a.js")) :=
  ⟨c6_iife_loader_semantics.1 [] 0 "./ghost" ⟨[], []⟩ rfl,
   c6_iife_loader_semantics.2.1 [("./b", ⟨[]⟩)] 0 "./b" ⟨["./b"], ["./b"]⟩ ⟨[]⟩ rfl (by decide),
   c6_iife_loader_semantics.2.2.1 [("./b", ⟨[]⟩)] 0 "./b" ⟨[], []⟩ ⟨[]⟩ rfl (by decide),
   c6_iife_loader_semantics.2.2.2.1 envC1 [] "/src/a.js"⟩

/-! ## Claim C9: the entry module's source map is carried into the bundle -/

/-- C9: both generators return as the bundle's `map` field the source
map of the module record whose `path` equals the entry path exactly as
passed by the build step. -/
theorem c9_entry_map_preserved (env : Env) (modules : List ModuleRecord) (entryPath : String)
    (mr : ModuleRecord) (hfind : modules.find? (fun m => m.path == entryPath) = some mr) :
    (generateIIFEBundle env modules entryPath).map = mr.map
    ∧ (generateESBundle env modules entryPath).map = mr.map := by
  constructor
  · simp [generateIIFEBundle, hfind]
  · simp [generateESBundle, hfind]

/-- Witness for C9: a one-module list whose record carries the map
`"MAP"` under the entry path `/e.js`. -/
theorem c9_witness :
    (generateIIFEBundle envC1 [⟨"/e.js", "code", some "MAP", []⟩] "/e.js").map = some "MAP"
    ∧ (generateESBundle envC1 [⟨"/e.js", "code", some "MAP", []⟩] "/e.js").map = some "MAP" :=
  c9_entry_map_preserved envC1 [⟨"/e.js", "code", some "MAP", []⟩] "/e.js"
    ⟨"/e.js", "code", some "MAP", []⟩ (by decide)

end Jolt
